import Mathlib

/-!
Shallow embedding of the multi-source analysis orchestrator of the
AnalysisPlatform repository, together with the rendering logic of the
frontend pages `Analysis.jsx` and the `SectionCard` component.

The backend Python sources (master_agent.py and the agent modules) are not
part of the source tree; only their documentation and the frontend are.
Definitions for the orchestrator are therefore modelled from the spec, as
their doc comments state.  Frontend definitions are translated from the JSX
sources.
-/

namespace AnalysisPlatform

/-- Provenance tag of a SectionResult: `live` data or `synthetic` fallback. -/
inductive Provenance where
  | live
  | synthetic
  deriving DecidableEq, Repr

/-- Modelled from the spec: an AnalysisRequest is a subject identifier
(entity name plus a context qualifier) and a request correlation id. -/
structure AnalysisRequest where
  subject : String
  context : String
  requestId : String
  deriving DecidableEq, Repr

/-- Modelled from the spec: a SectionResult carries the section name, a
confidence number, an opaque structured payload (named numeric sub-fields),
narrative text, a citation list and a provenance tag. -/
structure SectionResult where
  name : String
  confidence : ℚ
  payload : List (String × ℚ)
  narrative : String
  citations : List String
  provenance : Provenance
  deriving DecidableEq, Repr

/-- Modelled from the spec: a CompositeScore is the clamped value, a
breakdown mapping of section name to weighted contribution, and the safety
penalty that was applied. -/
structure CompositeScore where
  value : ℚ
  breakdown : List (String × ℚ)
  penalty : ℚ
  deriving DecidableEq, Repr

/-- Modelled from the spec: the AnalysisResult handed back to the caller. -/
structure AnalysisResult where
  requestId : String
  timestamp : Nat
  sections : List (String × SectionResult)
  composite : CompositeScore
  narrative : String
  deriving DecidableEq, Repr

/-- Modelled from the spec: the recoverable error kinds an agent run can
fail with (AgentError taxonomy of the error-handling design). -/
inductive AgentErrorKind where
  | networkError
  | timeoutError
  | schemaMismatchError
  deriving DecidableEq, Repr

/-- Modelled from the spec: an agent declares statically its section name,
its prerequisite section names, and a per-call timeout. -/
structure Agent where
  sectionName : String
  prerequisites : List String
  timeout : Nat
  deriving DecidableEq, Repr

/-- Modelled from the spec: the outcome of one agent invocation as observed
by the Scheduler: a live SectionResult, or a failure of one of the three
recoverable kinds (an agent force-failed at the global orchestration
deadline is observed as a `timeoutError` failure). -/
inductive RunOutcome where
  | success (r : SectionResult)
  | failure (e : AgentErrorKind)
  deriving DecidableEq, Repr

/-- Modelled from the spec: the fatal startup configuration errors of the
dependency graph. -/
inductive DepGraphError where
  | missingPrerequisite
  | cycle
  deriving DecidableEq, Repr

/-- Modelled from the spec: the classified outcome of one webhook delivery
attempt by the Completion Event Dispatcher. -/
inductive WebhookOutcome where
  | delivered
  | networkError
  | non2xx (code : Nat)
  | timeout
  deriving DecidableEq, Repr

/-- Modelled from the spec: the flat payload snapshot sent to the
automation webhook on completion. -/
structure WebhookEvent where
  eventType : String
  subject : String
  context : String
  compositeScore : ℚ
  timestamp : Nat
  status : String
  deriving DecidableEq, Repr

/-- Modelled from the spec: the observable effect of one dispatch attempt:
whether it was logged, how many retries were made, and whether it was
delivered. -/
structure DispatchRecord where
  logged : Bool
  retries : Nat
  delivered : Bool
  deriving DecidableEq, Repr

/-- Modelled from the spec: a stable hash of a string, used to derive the
fallback generator seed (the backend fallback code is not in the source
tree; the spec requires a seed derived from a stable hash of the inputs). -/
def stableHash (s : String) : Nat :=
  s.data.foldl (fun h c => (h * 31 + c.toNat) % 4294967296) 5381

/-- Modelled from the spec: one step of the seeded pseudo-random generator
used for synthetic numeric content. -/
def lcgNext (s : Nat) : Nat :=
  (1103515245 * s + 12345) % 2147483648

/-- Modelled from the spec: the n-th draw of the seeded generator. -/
def lcgDraw (seed : Nat) : Nat → Nat
  | 0 => lcgNext seed
  | n + 1 => lcgNext (lcgDraw seed n)

/-- Modelled from the spec: the Fallback Synthesizer.  Given a section name
and the AnalysisRequest it produces a SectionResult tagged `synthetic`,
deriving a seed from a stable hash of (section name, subject, context
qualifier) and drawing every numeric field from the seeded generator.  It
deliberately reads nothing of the request beyond subject and context. -/
def fallbackSynthesize (sectionName : String) (req : AnalysisRequest) : SectionResult :=
  let seed := stableHash (sectionName ++ "|" ++ req.subject ++ "|" ++ req.context)
  { name := sectionName
    confidence := ((50 + lcgDraw seed 0 % 40 : Nat) : ℚ) / 100
    payload :=
      [("feasibility", ((lcgDraw seed 1 % 101 : Nat) : ℚ)),
       ("safety_signals", ((lcgDraw seed 2 % 5 : Nat) : ℚ))]
    narrative :=
      "Synthetic analysis of " ++ req.subject ++ " for " ++ req.context ++
        " generated by the fallback synthesizer."
    citations := []
    provenance := Provenance.synthetic }

/-- Lookup of a section by name in a section mapping, first match wins
(mirrors a string-keyed dictionary access). -/
def lookupSection (sections : List (String × SectionResult)) (n : String) :
    Option SectionResult :=
  (sections.find? (fun p => p.fst == n)).map Prod.snd

/-- Lookup of a named numeric sub-field in a section payload. -/
def payloadLookup (s : SectionResult) (k : String) : Option ℚ :=
  (s.payload.find? (fun p => p.fst == k)).map Prod.snd

/-- Fixed weight table of the Scoring Engine, documented in
src/unnamed/part_005 (master_agent.py feasibility scoring): Clinical 20 %,
Literature 15 %, Patent 10 %, Safety 15 %, MoA 15 %, PPI 15 %, Disease
Similarity 10 %. -/
def weightTable : List (String × ℚ) :=
  [("Clinical", 20 / 100),
   ("Literature", 15 / 100),
   ("Patent", 10 / 100),
   ("Safety", 15 / 100),
   ("Mechanism_of_Action", 15 / 100),
   ("PPI_Network", 15 / 100),
   ("Disease_Similarity", 10 / 100)]

/-- Modelled from the spec: the startup configuration check that the weight
table sums to one before any penalty is applied (the backend startup code
is not in the source tree). -/
def startupWeightCheck : Bool :=
  (weightTable.map Prod.snd).sum == 1

/-- Modelled from the spec: a section contributes its explicit feasibility
sub-score when its payload provides one, otherwise its confidence scaled to
the 0..100 range. -/
def sectionScore (s : SectionResult) : ℚ :=
  match payloadLookup s "feasibility" with
  | some f => f
  | none => s.confidence * 100

/-- Modelled from the spec: the contribution of one weight-table entry for
a given section mapping (sections absent from the mapping contribute 0). -/
def weightedContribution (sections : List (String × SectionResult))
    (entry : String × ℚ) : ℚ :=
  match lookupSection sections entry.fst with
  | some s => entry.snd * sectionScore s
  | none => 0

/-- Modelled from the spec: the weighted sum over the fixed weight table. -/
def weightedSum (sections : List (String × SectionResult)) : ℚ :=
  (weightTable.map (weightedContribution sections)).sum

/-- Modelled from the spec: the count of adverse signals reported by the
safety section (0 when the section or the field is absent). -/
def adverseSignals (sections : List (String × SectionResult)) : ℚ :=
  match lookupSection sections "Safety" with
  | some s => (payloadLookup s "safety_signals").getD 0
  | none => 0

/-- Modelled from the spec: the safety penalty, derived from the adverse
signal count and bounded so that the composite score cannot go negative
before clamping. -/
def safetyPenalty (sections : List (String × SectionResult)) : ℚ :=
  min (max (2 * adverseSignals sections) 0) (max (weightedSum sections) 0)

/-- Modelled from the spec: final clamp of the composite score into the
interval from 0 to 100. -/
def clampScore (x : ℚ) : ℚ :=
  max 0 (min 100 x)

/-- Modelled from the spec: the Scoring Engine.  It combines the weighted
section contributions, subtracts the safety penalty, and clamps the final
value into the 0..100 range. -/
def computeCompositeScore (sections : List (String × SectionResult)) :
    CompositeScore :=
  { value := clampScore (weightedSum sections - safetyPenalty sections)
    breakdown := weightTable.map (fun e => (e.fst, weightedContribution sections e))
    penalty := safetyPenalty sections }

/-- Fixed, declared section order used by the Narrative Synthesizer,
modelled from the spec and from the executive-summary section list
documented in src/unnamed/part_005. -/
def narrativeOrder : List String :=
  ["Clinical", "Literature", "Market", "Patent", "Regulatory", "Safety",
   "Internal", "IQVIA_Market_Intelligence", "EXIM_Trade_Intelligence",
   "Mechanism_of_Action", "PPI_Network", "Disease_Similarity",
   "Hypothesis_Generation"]

/-- Modelled from the spec: rendering of one section of the summary: a
section header followed by the section's narrative, or nothing when the
section is absent from the mapping. -/
def renderSection (sections : List (String × SectionResult)) (n : String) :
    String :=
  match lookupSection sections n with
  | some s => "== " ++ n ++ " ==\n" ++ s.narrative ++ "\n"
  | none => ""

/-- Modelled from the spec: textual rendering of the CompositeScore
breakdown, appended last to the summary. -/
def renderBreakdown (score : CompositeScore) : String :=
  "== Composite Score ==\n" ++ toString score.value ++ "\n" ++
    String.join (score.breakdown.map
      (fun e => e.fst ++ ": " ++ toString e.snd ++ "\n")) ++
    "penalty: " ++ toString score.penalty ++ "\n"

/-- Modelled from the spec: the Narrative Synthesizer.  It iterates the
section results in the fixed declared order `narrativeOrder` (never in the
iteration order of the mapping), concatenates each section's narrative
under a section header, and appends the CompositeScore breakdown last. -/
def synthesizeNarrative (sections : List (String × SectionResult))
    (score : CompositeScore) : String :=
  String.join (narrativeOrder.map (renderSection sections)) ++
    renderBreakdown score

/-- Names of the declared agents. -/
def namesOf (agents : List Agent) : List String :=
  agents.map Agent.sectionName

/-- Modelled from the spec: an agent is ready when all its prerequisites
are already resolved and it is not itself resolved yet. -/
def ready (resolved : List String) (a : Agent) : Bool :=
  a.prerequisites.all (fun p => resolved.contains p) &&
    !(resolved.contains a.sectionName)

/-- Names of the agents newly ready in one scheduling round. -/
def newlyNames (agents : List Agent) (resolved : List String) : List String :=
  (agents.filter (ready resolved)).map Agent.sectionName

/-- Modelled from the spec: Kahn-style resolution rounds of the
dependency-aware Scheduler: repeatedly mark every agent whose prerequisites
are resolved, until no progress is made or the fuel runs out. -/
def kahnIter (agents : List Agent) : Nat → List String → List String
  | 0, resolved => resolved
  | n + 1, resolved =>
    let newly := newlyNames agents resolved
    if newly.isEmpty then resolved else kahnIter agents n (resolved ++ newly)

/-- Modelled from the spec: the startup validation of the declared agent
set.  A prerequisite naming no declared agent or a dependency cycle is a
fatal configuration error; otherwise validation succeeds. -/
def validateGraph (agents : List Agent) : Except DepGraphError Unit :=
  if agents.any (fun a =>
      a.prerequisites.any (fun p => !((namesOf agents).contains p))) then
    Except.error DepGraphError.missingPrerequisite
  else if agents.all (fun a =>
      (kahnIter agents agents.length []).contains a.sectionName) then
    Except.ok ()
  else
    Except.error DepGraphError.cycle

/-- Modelled from the spec: resolution of one agent's section.  A live
result is used as returned; any failure of a recoverable kind is replaced
by the Fallback Synthesizer's output. -/
def resolveSection (req : AnalysisRequest) (env : String → RunOutcome)
    (a : Agent) : SectionResult :=
  match env a.sectionName with
  | RunOutcome.success r => r
  | RunOutcome.failure _ => fallbackSynthesize a.sectionName req

/-- Modelled from the spec: the fully-resolved section mapping produced by
the Scheduler, one entry per declared agent, live or fallback. -/
def resolvedSections (agents : List Agent) (env : String → RunOutcome)
    (req : AnalysisRequest) : List (String × SectionResult) :=
  agents.map (fun a => (a.sectionName, resolveSection req env a))

/-- Modelled from the spec: the Result Assembler.  It merges the resolved
section mapping, the composite score and the narrative into the immutable
AnalysisResult. -/
def assembleResult (req : AnalysisRequest) (ts : Nat)
    (sections : List (String × SectionResult)) : AnalysisResult :=
  { requestId := req.requestId
    timestamp := ts
    sections := sections
    composite := computeCompositeScore sections
    narrative := synthesizeNarrative sections (computeCompositeScore sections) }

/-- Modelled from the spec: the orchestrator.  After the startup graph
validation it resolves every declared agent (live or fallback), computes
the composite score, synthesizes the narrative and assembles the immutable
AnalysisResult.  The behaviour of each agent invocation, including agents
force-failed at the global deadline, is abstracted by the environment
`env`. -/
def orchestrate (agents : List Agent) (env : String → RunOutcome)
    (req : AnalysisRequest) (ts : Nat) : Except DepGraphError AnalysisResult :=
  match validateGraph agents with
  | Except.error e => Except.error e
  | Except.ok _ =>
    Except.ok (assembleResult req ts (resolvedSections agents env req))

/-- Modelled from the spec: the WebhookEvent built from a completed
AnalysisResult. -/
def buildWebhookEvent (req : AnalysisRequest) (res : AnalysisResult) :
    WebhookEvent :=
  { eventType := "analysis-finished"
    subject := req.subject
    context := req.context
    compositeScore := res.composite.value
    timestamp := res.timestamp
    status := "completed" }

/-- Modelled from the spec: the Completion Event Dispatcher.  Every
delivery attempt is logged and never retried; any failure (network error,
non-2xx response, timeout) is absorbed. -/
def dispatchWebhook (ev : WebhookEvent) (outcome : WebhookOutcome) :
    DispatchRecord :=
  match ev, outcome with
  | _, WebhookOutcome.delivered =>
    { logged := true, retries := 0, delivered := true }
  | _, _ =>
    { logged := true, retries := 0, delivered := false }

/-- Modelled from the spec: the full pipeline: orchestration followed by
the fire-and-forget webhook dispatch, whose outcome is abstracted by the
`outcome` argument.  The dispatch happens after assembly and its record is
returned beside the untouched AnalysisResult. -/
def runPipeline (agents : List Agent) (env : String → RunOutcome)
    (req : AnalysisRequest) (ts : Nat) (outcome : WebhookOutcome) :
    Except DepGraphError (AnalysisResult × DispatchRecord) :=
  match orchestrate agents env req ts with
  | Except.error e => Except.error e
  | Except.ok res =>
    Except.ok (res, dispatchWebhook (buildWebhookEvent req res) outcome)

/-- Fixed display order of the Analysis results page, translated from
src/frontend/src/pages/Analysis.jsx line 122. -/
def sectionOrder : List String :=
  ["Clinical", "Literature", "Market", "Patent", "Regulatory", "Safety",
   "Internal"]

/-- Translated from src/frontend/src/pages/Analysis.jsx line 123: the
section names rendered as cards; `sections` abstracts the JavaScript
truthiness of the response mapping at each key. -/
def displaySections (sections : String → Bool) : List String :=
  sectionOrder.filter (fun name => sections name)

/-- Section content fields read by the SectionCard confidence block
(src/unnamed/part_001 lines 50 to 64); an absent field is `none`. -/
structure SectionContent where
  confidence_score : Option ℚ
  confidence : Option ℚ
  deriving DecidableEq, Repr

/-- JavaScript truthiness of a possibly absent number: `undefined` and `0`
are falsy, every other number is truthy. -/
def truthyNum : Option ℚ → Bool
  | none => false
  | some x => decide (x ≠ 0)

/-- JavaScript `a || b` on possibly absent numbers: the left operand when
it is truthy, otherwise the right operand. -/
def jsOrNum (a b : Option ℚ) : Option ℚ :=
  if truthyNum a then a else b

/-- Numeric value of a possibly absent field as used in arithmetic. -/
def jsNumValue : Option ℚ → ℚ
  | none => 0
  | some x => x

/-- Translated from src/unnamed/part_001 line 50: the confidence bar is
rendered exactly when `content.confidence_score || content.confidence` is
truthy. -/
def showConfidenceBar (c : SectionContent) : Bool :=
  truthyNum (jsOrNum c.confidence_score c.confidence)

/-- Translated from src/unnamed/part_001 lines 57 and 61: the fraction
behind the bar width and the printed percentage,
`content.confidence_score || content.confidence / 100` (the division binds
tighter than the disjunction). -/
def displayedFraction (c : SectionContent) : ℚ :=
  if truthyNum c.confidence_score then jsNumValue c.confidence_score
  else jsNumValue c.confidence / 100

/-- A run outcome that is a failure of some recoverable kind. -/
def IsFailure (o : RunOutcome) : Prop :=
  ∃ e, o = RunOutcome.failure e

lemma orchestrate_eq_ok {agents : List Agent} (env : String → RunOutcome)
    (req : AnalysisRequest) (ts : Nat)
    (h : validateGraph agents = Except.ok ()) :
    orchestrate agents env req ts =
      Except.ok (assembleResult req ts (resolvedSections agents env req)) := by
  simp [orchestrate, h]

lemma lookupSection_of_mem_fst {sections : List (String × SectionResult)}
    {n : String} (h : ∃ s, (n, s) ∈ sections) :
    ∃ s, lookupSection sections n = some s := by
  induction sections with
  | nil =>
    obtain ⟨s, hs⟩ := h
    cases hs
  | cons hd tl ih =>
    by_cases hh : hd.fst == n
    · refine ⟨hd.snd, ?_⟩
      unfold lookupSection
      simp [hh]
    · obtain ⟨s, hs⟩ := h
      rcases List.mem_cons.mp hs with heq | htl
      · exact absurd (by simp [← heq]) hh
      · obtain ⟨s', hs'⟩ := ih ⟨s, htl⟩
        refine ⟨s', ?_⟩
        unfold lookupSection at hs' ⊢
        simp only [List.find?]
        rw [Bool.eq_false_iff.mpr hh]
        exact hs'

lemma clampScore_nonneg (x : ℚ) : 0 ≤ clampScore x :=
  le_max_left 0 _

lemma clampScore_le_100 (x : ℚ) : clampScore x ≤ 100 :=
  max_le (by norm_num) (min_le_left _ _)

/-- Concrete declared agent set used to instantiate the theorems: a small
valid configuration with one dependency. -/
def demoAgents : List Agent :=
  [{ sectionName := "Clinical", prerequisites := [], timeout := 5 },
   { sectionName := "Safety", prerequisites := ["Clinical"], timeout := 5 },
   { sectionName := "Patent", prerequisites := [], timeout := 5 }]

/-- Concrete request used to instantiate the theorems. -/
def demoReq : AnalysisRequest :=
  { subject := "Aspirin", context := "Migraine", requestId := "req-001" }

/-- Environment in which every agent invocation fails with a network
error. -/
def failEnv : String → RunOutcome :=
  fun _ => RunOutcome.failure AgentErrorKind.networkError

/-- C1: for every valid AnalysisRequest the returned AnalysisResult has
exactly one SectionResult per declared agent: the section mapping has as
many entries as there are declared agents and no declared agent's section
is omitted, whatever the upstream outcomes are. -/
theorem sections_complete_per_agent (agents : List Agent)
    (env : String → RunOutcome) (req : AnalysisRequest) (ts : Nat)
    (h : validateGraph agents = Except.ok ()) :
    ∃ res, orchestrate agents env req ts = Except.ok res ∧
      res.sections.length = agents.length ∧
      ∀ a ∈ agents, ∃ s, lookupSection res.sections a.sectionName = some s := by
  refine ⟨assembleResult req ts (resolvedSections agents env req),
    orchestrate_eq_ok env req ts h, ?_, ?_⟩
  · simp [assembleResult, resolvedSections]
  · intro a ha
    refine lookupSection_of_mem_fst ⟨resolveSection req env a, ?_⟩
    simp only [assembleResult, resolvedSections]
    exact List.mem_map_of_mem _ ha

theorem sections_complete_per_agent_witness :
    ∃ res, orchestrate demoAgents failEnv demoReq 0 = Except.ok res ∧
      res.sections.length = demoAgents.length ∧
      ∀ a ∈ demoAgents, ∃ s, lookupSection res.sections a.sectionName = some s :=
  sections_complete_per_agent demoAgents failEnv demoReq 0 rfl

/-- C2: the composite score of every assembled AnalysisResult lies in the
interval from 0 to 100: the Scoring Engine clamps the final value even
when the weighted sum minus the safety penalty leaves that range. -/
theorem composite_score_in_range :
    (∀ sections, 0 ≤ (computeCompositeScore sections).value ∧
        (computeCompositeScore sections).value ≤ 100 ∧
        (computeCompositeScore sections).value =
          clampScore (weightedSum sections - safetyPenalty sections)) ∧
      ∀ agents env req ts, validateGraph agents = Except.ok () →
        ∃ res, orchestrate agents env req ts = Except.ok res ∧
          0 ≤ res.composite.value ∧ res.composite.value ≤ 100 := by
  constructor
  · intro sections
    exact ⟨clampScore_nonneg _, clampScore_le_100 _, rfl⟩
  · intro agents env req ts h
    exact ⟨assembleResult req ts (resolvedSections agents env req),
      orchestrate_eq_ok env req ts h,
      clampScore_nonneg _, clampScore_le_100 _⟩

theorem composite_score_in_range_witness :
    ∃ res, orchestrate demoAgents failEnv demoReq 0 = Except.ok res ∧
      0 ≤ res.composite.value ∧ res.composite.value ≤ 100 :=
  composite_score_in_range.2 demoAgents failEnv demoReq 0 rfl

/-- C3: the Fallback Synthesizer is a deterministic function of the triple
(section name, subject, context qualifier): two invocations that agree on
those three inputs produce identical SectionResult values, whatever else
the two requests differ in. -/
theorem fallback_synthesizer_deterministic (n : String)
    (r₁ r₂ : AnalysisRequest) (hs : r₁.subject = r₂.subject)
    (hc : r₁.context = r₂.context) :
    fallbackSynthesize n r₁ = fallbackSynthesize n r₂ := by
  simp [fallbackSynthesize, hs, hc]

theorem fallback_synthesizer_deterministic_witness :
    fallbackSynthesize "Patent"
        { subject := "Aspirin", context := "Migraine", requestId := "run-1" } =
      fallbackSynthesize "Patent"
        { subject := "Aspirin", context := "Migraine", requestId := "run-2" } :=
  fallback_synthesizer_deterministic "Patent" _ _ rfl rfl

/-- C6: the fixed weight table of the Scoring Engine maps its declared
section names to weights summing to exactly 1 before the safety penalty,
with the documented values (Clinical 20 %, Literature 15 %, Patent 10 %,
Safety 15 %, MoA 15 %, PPI 15 %, Disease Similarity 10 %), and the startup
configuration check verifies that sum. -/
theorem weight_table_sums_to_one :
    (weightTable.map Prod.snd).sum = 1 ∧
      startupWeightCheck = true ∧
      weightTable.map Prod.fst =
        ["Clinical", "Literature", "Patent", "Safety", "Mechanism_of_Action",
         "PPI_Network", "Disease_Similarity"] ∧
      weightTable.map Prod.snd =
        [20 / 100, 15 / 100, 10 / 100, 15 / 100, 15 / 100, 15 / 100,
         10 / 100] := by
  refine ⟨by norm_num [weightTable], ?_, rfl, rfl⟩
  norm_num [startupWeightCheck, weightTable]

/-- C4: if every agent invocation fails (including agents force-failed at
the global deadline, observed as failures), the orchestrator still returns
a complete AnalysisResult whose sections all carry the `synthetic`
provenance tag and whose composite score is valid; no error reaches the
caller for agent failure. -/
theorem total_failure_still_complete (agents : List Agent)
    (env : String → RunOutcome) (req : AnalysisRequest) (ts : Nat)
    (h : validateGraph agents = Except.ok ())
    (hfail : ∀ a ∈ agents, IsFailure (env a.sectionName)) :
    ∃ res, orchestrate agents env req ts = Except.ok res ∧
      (∀ p ∈ res.sections, p.snd.provenance = Provenance.synthetic) ∧
      res.sections.length = agents.length ∧
      0 ≤ res.composite.value ∧ res.composite.value ≤ 100 := by
  refine ⟨assembleResult req ts (resolvedSections agents env req),
    orchestrate_eq_ok env req ts h, ?_,
    by simp [assembleResult, resolvedSections],
    clampScore_nonneg _, clampScore_le_100 _⟩
  intro p hp
  simp only [assembleResult, resolvedSections] at hp
  obtain ⟨a, ha, rfl⟩ := List.mem_map.mp hp
  obtain ⟨e, he⟩ := hfail a ha
  simp [resolveSection, he, fallbackSynthesize]

theorem total_failure_still_complete_witness :
    ∃ res, orchestrate demoAgents failEnv demoReq 0 = Except.ok res ∧
      (∀ p ∈ res.sections, p.snd.provenance = Provenance.synthetic) ∧
      res.sections.length = demoAgents.length ∧
      0 ≤ res.composite.value ∧ res.composite.value ≤ 100 :=
  total_failure_still_complete demoAgents failEnv demoReq 0 rfl
    (fun _ _ => ⟨AgentErrorKind.networkError, rfl⟩)

/-- C5: any failure of the Completion Event Dispatcher (network error,
non-2xx response, timeout) is fully absorbed: every dispatch is logged and
never retried, and the AnalysisResult of the pipeline is identical to the
one produced when delivery succeeds, and identical to the orchestrator's
result — the dispatch has no effect on the returned result. -/
theorem webhook_failure_absorbed (agents : List Agent)
    (env : String → RunOutcome) (req : AnalysisRequest) (ts : Nat)
    (o : WebhookOutcome) :
    Except.map Prod.fst (runPipeline agents env req ts o) =
        Except.map Prod.fst
          (runPipeline agents env req ts WebhookOutcome.delivered) ∧
      Except.map Prod.fst (runPipeline agents env req ts o) =
        orchestrate agents env req ts ∧
      ∀ ev, (dispatchWebhook ev o).retries = 0 ∧
        (dispatchWebhook ev o).logged = true := by
  refine ⟨?_, ?_, ?_⟩
  · cases ho : orchestrate agents env req ts <;>
      simp [runPipeline, ho, Except.map]
  · cases ho : orchestrate agents env req ts <;>
      simp [runPipeline, ho, Except.map]
  · intro ev
    cases o <;> simp [dispatchWebhook]

/-- C7: the Narrative Synthesizer iterates the section results in the one
fixed declared order `narrativeOrder`: its output depends only on the
mapping's lookup function, never on the mapping's insertion or iteration
order, and it is the concatenation of the per-section renderings in that
fixed order with the CompositeScore breakdown appended last. -/
theorem narrative_fixed_declared_order :
    (∀ s₁ s₂ score,
        (∀ n, lookupSection s₁ n = lookupSection s₂ n) →
          synthesizeNarrative s₁ score = synthesizeNarrative s₂ score) ∧
      ∀ s score, synthesizeNarrative s score =
        String.join (narrativeOrder.map (renderSection s)) ++
          renderBreakdown score := by
  constructor
  · intro s₁ s₂ score hl
    have hr : renderSection s₁ = renderSection s₂ := by
      funext n
      unfold renderSection
      rw [hl n]
    unfold synthesizeNarrative
    rw [hr]
  · intro s score
    rfl

/-- Concrete section mapping used to instantiate the narrative theorem. -/
def demoSectionsOne : List (String × SectionResult) :=
  [("Clinical", fallbackSynthesize "Clinical" demoReq),
   ("Safety", fallbackSynthesize "Safety" demoReq)]

/-- The same mapping as `demoSectionsOne` in the opposite insertion
order. -/
def demoSectionsTwo : List (String × SectionResult) :=
  [("Safety", fallbackSynthesize "Safety" demoReq),
   ("Clinical", fallbackSynthesize "Clinical" demoReq)]

theorem narrative_fixed_declared_order_witness :
    synthesizeNarrative demoSectionsOne
        (computeCompositeScore demoSectionsOne) =
      synthesizeNarrative demoSectionsTwo
        (computeCompositeScore demoSectionsOne) :=
  narrative_fixed_declared_order.1 demoSectionsOne demoSectionsTwo
    (computeCompositeScore demoSectionsOne) (by
      intro n
      by_cases h1 : ("Clinical" == n)
      · by_cases h2 : ("Safety" == n)
        · exact absurd ((beq_iff_eq.mp h1).trans (beq_iff_eq.mp h2).symm)
            (by decide)
        · simp [demoSectionsOne, demoSectionsTwo, lookupSection, h1, h2]
      · by_cases h2 : ("Safety" == n)
        · simp [demoSectionsOne, demoSectionsTwo, lookupSection, h1, h2]
        · simp [demoSectionsOne, demoSectionsTwo, lookupSection, h1, h2])

/-- C9: the Analysis results page renders section cards exactly for the
truthy entries of the seven fixed names of `sectionOrder`, in that fixed
order (the rendered list is a sublist of `sectionOrder`); a name of the
list whose entry is absent or falsy is skipped, and a key outside the list
is never rendered as a card. -/
theorem analysis_page_renders_fixed_section_cards (sections : String → Bool) :
    (displaySections sections).Sublist sectionOrder ∧
      ∀ n, n ∈ displaySections sections ↔
        (n ∈ sectionOrder ∧ sections n = true) := by
  refine ⟨List.filter_sublist _, ?_⟩
  intro n
  simp [displaySections, List.mem_filter]

/-- Concrete response mapping for the display theorem: truthy at two of
the fixed names and at a key outside the list. -/
def demoPageSections : String → Bool :=
  fun n => n == "Clinical" || n == "Safety" || n == "Bogus"

theorem analysis_page_renders_fixed_section_cards_witness :
    (displaySections demoPageSections).Sublist sectionOrder ∧
      ("Clinical" ∈ displaySections demoPageSections ↔
        ("Clinical" ∈ sectionOrder ∧ demoPageSections "Clinical" = true)) ∧
      ("Bogus" ∈ displaySections demoPageSections ↔
        ("Bogus" ∈ sectionOrder ∧ demoPageSections "Bogus" = true)) :=
  ⟨(analysis_page_renders_fixed_section_cards demoPageSections).1,
   (analysis_page_renders_fixed_section_cards demoPageSections).2 "Clinical",
   (analysis_page_renders_fixed_section_cards demoPageSections).2 "Bogus"⟩

/-- C10: the SectionCard confidence bar is shown iff
`content.confidence_score || content.confidence` is truthy; the displayed
fraction is `confidence_score` when that field is truthy and
`confidence / 100` otherwise; hence a `confidence_score` of 0 is treated
as absent, falling back to `confidence / 100`, and the bar is suppressed
entirely when `confidence` is also 0 or absent. -/
theorem section_card_confidence_bar (c : SectionContent) :
    (showConfidenceBar c = true ↔
        (truthyNum c.confidence_score = true ∨
          truthyNum c.confidence = true)) ∧
      displayedFraction c =
        (if truthyNum c.confidence_score then jsNumValue c.confidence_score
          else jsNumValue c.confidence / 100) ∧
      (c.confidence_score = some 0 →
        displayedFraction c = jsNumValue c.confidence / 100) ∧
      (c.confidence_score = some 0 →
        c.confidence = some 0 ∨ c.confidence = none →
          showConfidenceBar c = false) := by
  refine ⟨?_, rfl, ?_, ?_⟩
  · unfold showConfidenceBar jsOrNum
    by_cases h : truthyNum c.confidence_score <;> simp [h]
  · intro h0
    unfold displayedFraction
    rw [h0]
    simp [truthyNum]
  · intro h0 hc
    unfold showConfidenceBar jsOrNum
    rw [h0]
    rcases hc with hc | hc <;> rw [hc] <;> simp [truthyNum]

theorem section_card_confidence_bar_witness :
    displayedFraction { confidence_score := some 0, confidence := some 50 } =
        jsNumValue (some 50) / 100 ∧
      showConfidenceBar { confidence_score := some 0, confidence := none } =
        false :=
  ⟨(section_card_confidence_bar
      { confidence_score := some 0, confidence := some 50 }).2.2.1 rfl,
   (section_card_confidence_bar
      { confidence_score := some 0, confidence := none }).2.2.2 rfl
     (Or.inr rfl)⟩

/-- Position of the first occurrence of a name in a list (length of the
list when absent); used to rank resolution order. -/
def idxOf : List String → String → Nat
  | [], _ => 0
  | x :: xs, n => if x = n then 0 else idxOf xs n + 1

lemma idxOf_append_of_mem {l₁ : List String} (l₂ : List String) {n : String}
    (h : n ∈ l₁) : idxOf (l₁ ++ l₂) n = idxOf l₁ n := by
  induction l₁ with
  | nil => cases h
  | cons x xs ih =>
    by_cases hx : x = n
    · simp [idxOf, hx]
    · rcases List.mem_cons.mp h with h1 | h1
      · exact absurd h1.symm hx
      · simp [idxOf, hx, ih h1]

lemma idxOf_lt_length {l : List String} {n : String} (h : n ∈ l) :
    idxOf l n < l.length := by
  induction l with
  | nil => cases h
  | cons x xs ih =>
    by_cases hx : x = n
    · simp [idxOf, hx]
    · rcases List.mem_cons.mp h with h1 | h1
      · exact absurd h1.symm hx
      · simpa [idxOf, hx] using Nat.succ_lt_succ (ih h1)

lemma length_le_idxOf_append {l₁ l₂ : List String} {n : String}
    (h : n ∉ l₁) : l₁.length ≤ idxOf (l₁ ++ l₂) n := by
  induction l₁ with
  | nil => simp
  | cons x xs ih =>
    have hx : x ≠ n := by
      rintro rfl
      exact h (List.mem_cons_self x xs)
    have hxs : n ∉ xs := fun hm => h (List.mem_cons_of_mem _ hm)
    simpa [idxOf, hx] using Nat.succ_le_succ (ih hxs)

/-- Dependency edge relation of a declared agent set: `DependsOn agents u v`
holds when the agent declaring section `v` lists `u` among its
prerequisites. -/
def DependsOn (agents : List Agent) (u v : String) : Prop :=
  ∃ a ∈ agents, a.sectionName = v ∧ u ∈ a.prerequisites

/-- A declared agent set contains a dependency cycle when some section
name reaches itself through one or more dependency edges. -/
def HasDependencyCycle (agents : List Agent) : Prop :=
  ∃ x, Relation.TransGen (DependsOn agents) x x

/-- A declared agent set has a missing prerequisite when some declared
agent lists a prerequisite naming no declared agent. -/
def HasMissingPrereq (agents : List Agent) : Prop :=
  ∃ a ∈ agents, ∃ p ∈ a.prerequisites, p ∉ namesOf agents

/-- Invariant of the Scheduler's resolution rounds: every resolved agent
has all its prerequisites resolved strictly earlier. -/
def ResolvedInv (agents : List Agent) (resolved : List String) : Prop :=
  ∀ a ∈ agents, a.sectionName ∈ resolved →
    ∀ p ∈ a.prerequisites, p ∈ resolved ∧
      idxOf resolved p < idxOf resolved a.sectionName

lemma resolvedInv_nil (agents : List Agent) : ResolvedInv agents [] := by
  intro a _ hmem
  cases hmem

lemma ready_spec {resolved : List String} {a : Agent} :
    ready resolved a = true ↔
      (∀ p ∈ a.prerequisites, p ∈ resolved) ∧ a.sectionName ∉ resolved := by
  simp [ready]

lemma mem_newlyNames {agents : List Agent} {resolved : List String}
    {n : String} (h : n ∈ newlyNames agents resolved) :
    ∃ b ∈ agents, ready resolved b = true ∧ b.sectionName = n := by
  simp only [newlyNames, List.mem_map, List.mem_filter] at h
  obtain ⟨b, ⟨hb, hr⟩, hn⟩ := h
  exact ⟨b, hb, hr, hn⟩

lemma resolvedInv_append {agents : List Agent} {resolved : List String}
    (hnd : (namesOf agents).Nodup) (h : ResolvedInv agents resolved) :
    ResolvedInv agents (resolved ++ newlyNames agents resolved) := by
  intro a ha hmem p hp
  by_cases har : a.sectionName ∈ resolved
  · obtain ⟨hpmem, hlt⟩ := h a ha har p hp
    refine ⟨List.mem_append_left _ hpmem, ?_⟩
    rw [idxOf_append_of_mem _ hpmem, idxOf_append_of_mem _ har]
    exact hlt
  · have hnew : a.sectionName ∈ newlyNames agents resolved := by
      rcases List.mem_append.mp hmem with h1 | h2
      · exact absurd h1 har
      · exact h2
    obtain ⟨b, hb, hready, hbn⟩ := mem_newlyNames hnew
    have hnd' : (agents.map Agent.sectionName).Nodup := hnd
    have hba : b = a := List.inj_on_of_nodup_map hnd' hb ha hbn
    subst hba
    obtain ⟨hpre, _⟩ := ready_spec.mp hready
    have hpmem := hpre p hp
    refine ⟨List.mem_append_left _ hpmem, ?_⟩
    calc idxOf (resolved ++ newlyNames agents resolved) p
        = idxOf resolved p := idxOf_append_of_mem _ hpmem
      _ < resolved.length := idxOf_lt_length hpmem
      _ ≤ idxOf (resolved ++ newlyNames agents resolved) b.sectionName :=
          length_le_idxOf_append har

lemma kahnIter_inv {agents : List Agent} (hnd : (namesOf agents).Nodup) :
    ∀ (fuel : Nat) (resolved : List String), ResolvedInv agents resolved →
      ResolvedInv agents (kahnIter agents fuel resolved) := by
  intro fuel
  induction fuel with
  | zero =>
    intro resolved h
    simpa [kahnIter] using h
  | succ m ih =>
    intro resolved h
    by_cases hemp : (newlyNames agents resolved).isEmpty
    · simpa [kahnIter, hemp] using h
    · have hstep := ih _ (resolvedInv_append hnd h)
      simpa [kahnIter, hemp] using hstep

lemma validateGraph_ok_facts {agents : List Agent}
    (h : validateGraph agents = Except.ok ()) :
    (∀ a ∈ agents, a.sectionName ∈ kahnIter agents agents.length []) ∧
      ∀ a ∈ agents, ∀ p ∈ a.prerequisites, p ∈ namesOf agents := by
  unfold validateGraph at h
  by_cases h1 : agents.any (fun a =>
      a.prerequisites.any (fun p => !((namesOf agents).contains p)))
  · rw [if_pos h1] at h
    cases h
  · rw [if_neg h1] at h
    by_cases h2 : agents.all (fun a =>
        (kahnIter agents agents.length []).contains a.sectionName)
    · constructor
      · intro a ha
        have := List.all_eq_true.mp h2 a ha
        simpa using this
      · intro a ha p hp
        by_contra hnp
        apply h1
        refine List.any_eq_true.mpr ⟨a, ha, ?_⟩
        refine List.any_eq_true.mpr ⟨p, hp, ?_⟩
        simpa using hnp
    · rw [if_neg h2] at h
      cases h

lemma dependsOn_idx_lt {agents : List Agent}
    (hnd : (namesOf agents).Nodup)
    (h : validateGraph agents = Except.ok ()) {u v : String}
    (huv : DependsOn agents u v) :
    idxOf (kahnIter agents agents.length []) u <
      idxOf (kahnIter agents agents.length []) v := by
  obtain ⟨a, ha, hav, hu⟩ := huv
  have hinv := kahnIter_inv hnd agents.length [] (resolvedInv_nil agents)
  have hall := (validateGraph_ok_facts h).1
  obtain ⟨_, hlt⟩ := hinv a ha (hall a ha) u hu
  rw [hav] at hlt
  exact hlt

lemma no_cycle_of_ok {agents : List Agent}
    (hnd : (namesOf agents).Nodup)
    (h : validateGraph agents = Except.ok ()) :
    ¬ HasDependencyCycle agents := by
  rintro ⟨x, hx⟩
  have key : ∀ u v, Relation.TransGen (DependsOn agents) u v →
      idxOf (kahnIter agents agents.length []) u <
        idxOf (kahnIter agents agents.length []) v := by
    intro u v huv
    induction huv with
    | single h1 => exact dependsOn_idx_lt hnd h h1
    | tail _ h2 ih => exact lt_trans ih (dependsOn_idx_lt hnd h h2)
  exact lt_irrefl _ (key x x hx)

lemma no_missing_of_ok {agents : List Agent}
    (h : validateGraph agents = Except.ok ()) :
    ¬ HasMissingPrereq agents := by
  rintro ⟨a, ha, p, hp, hnp⟩
  exact hnp ((validateGraph_ok_facts h).2 a ha p hp)

/-- C8: on a declared agent set with distinct section names, a dependency
cycle or a prerequisite naming no declared agent makes the startup
validation fail with a fatal configuration error; conversely, once the
graph validates, the Scheduler never fails for individual agent failures:
the orchestrator returns a result and every failed agent's section is the
Fallback Synthesizer's output. -/
theorem scheduler_error_discipline (agents : List Agent)
    (hnd : (namesOf agents).Nodup) :
    ((HasDependencyCycle agents ∨ HasMissingPrereq agents) →
        ∃ e, validateGraph agents = Except.error e) ∧
      ∀ env req ts, validateGraph agents = Except.ok () →
        ∃ res, orchestrate agents env req ts = Except.ok res ∧
          ∀ a ∈ agents, ∀ e, env a.sectionName = RunOutcome.failure e →
            (a.sectionName, fallbackSynthesize a.sectionName req) ∈
              res.sections := by
  constructor
  · intro hbad
    cases hval : validateGraph agents with
    | error e => exact ⟨e, rfl⟩
    | ok u =>
      cases u
      rcases hbad with hcyc | hmiss
      · exact absurd hcyc (no_cycle_of_ok hnd hval)
      · exact absurd hmiss (no_missing_of_ok hval)
  · intro env req ts hok
    refine ⟨assembleResult req ts (resolvedSections agents env req),
      orchestrate_eq_ok env req ts hok, ?_⟩
    intro a ha e he
    have hm : (a.sectionName, resolveSection req env a) ∈
        resolvedSections agents env req := by
      unfold resolvedSections
      exact List.mem_map_of_mem _ ha
    simpa [assembleResult, resolveSection, he] using hm

/-- Concrete agent set whose dependency declarations form a cycle. -/
def cyclicAgents : List Agent :=
  [{ sectionName := "A", prerequisites := ["B"], timeout := 1 },
   { sectionName := "B", prerequisites := ["A"], timeout := 1 }]

lemma cyclicAgents_cycle : HasDependencyCycle cyclicAgents := by
  have e1 : DependsOn cyclicAgents "A" "B" :=
    ⟨{ sectionName := "B", prerequisites := ["A"], timeout := 1 },
      by simp [cyclicAgents], rfl, by simp⟩
  have e2 : DependsOn cyclicAgents "B" "A" :=
    ⟨{ sectionName := "A", prerequisites := ["B"], timeout := 1 },
      by simp [cyclicAgents], rfl, by simp⟩
  exact ⟨"A", Relation.TransGen.tail (Relation.TransGen.single e1) e2⟩

theorem scheduler_error_discipline_witness :
    (∃ e, validateGraph cyclicAgents = Except.error e) ∧
      ∃ res, orchestrate demoAgents failEnv demoReq 0 = Except.ok res ∧
        ∀ a ∈ demoAgents, ∀ e,
          failEnv a.sectionName = RunOutcome.failure e →
            (a.sectionName, fallbackSynthesize a.sectionName demoReq) ∈
              res.sections :=
  ⟨(scheduler_error_discipline cyclicAgents (by decide)).1
      (Or.inl cyclicAgents_cycle),
   (scheduler_error_discipline demoAgents (by decide)).2 failEnv demoReq 0
      rfl⟩

end AnalysisPlatform
